import Mathlib

/-!
Verification of the TownSense backend against its specification

This file gives a shallow embedding, in Lean 4, of the parts of the
TownSense backend (a civic-issue-reporting web application) that the
specification's claims are about, and proves or refutes each claim.

The embedded code comes from:
* `backend/github_ai.py` — the AI interpretation client (retry/backoff
  loop, issue-location parsing, image-size guard, feedback enrichment);
* `backend/app.py` — the upload pipeline (`upload_image`), the resize
  helper (`resize_image`), the evaluation endpoint's fallback
  (`evaluate_image`), and report hiding (`clear_reports`);
* `backend/report_handler.py` — report retrieval (`get_reports_by_username`);
* `backend/visuals.py` — confidence-dependent color adjustment
  (`adjust_color_for_confidence`).

Numeric conventions: Python's integer and decimal arithmetic is modelled
over `ℚ`; Python's `int(...)` truncation toward zero is `pyInt`; Python's
banker's rounding `round(x, n)` is `pyRound`; the binary64 floating-point
arithmetic of the image-resize computations is modelled exactly by
`floatRound` (round-to-nearest, ties-to-even on the 53-bit significand).
-/

namespace TownSense

/-- Python `int(q)`: truncation toward zero. -/
def pyInt (q : ℚ) : ℤ :=
  if 0 ≤ q then ⌊q⌋ else -⌊-q⌋

/-- Truncation toward zero of a nonnegative rational, as a natural number
(used for image dimensions, which are nonnegative). -/
def natFloor (q : ℚ) : ℕ := (⌊q⌋).toNat

theorem pyInt_of_nonneg {q : ℚ} (h : 0 ≤ q) : pyInt q = ⌊q⌋ := by
  simp [pyInt, h]

theorem pyInt_intCast (z : ℤ) : pyInt (z : ℚ) = z := by
  unfold pyInt
  split
  · exact Int.floor_intCast z
  · rw [← Int.cast_neg, Int.floor_intCast]
    ring

/-! ## `backend/visuals.py` : `adjust_color_for_confidence`

```python
def adjust_color_for_confidence(base_color, confidence):
    conf = np.clip(confidence, 0.0, 1.0)
    blend_factor = 1.0 - conf  # 0 = bold color, 1 = white

    r, g, b = base_color
    r = int(r + (255 - r) * blend_factor)
    g = int(g + (255 - g) * blend_factor)
    b = int(b + (255 - b) * blend_factor)

    return (r, g, b)
```
-/

/-- Python `np.clip(confidence, 0.0, 1.0)`. -/
def npClip01 (q : ℚ) : ℚ := min (max q 0) 1

/-- One channel of `adjust_color_for_confidence`: `int(v + (255 - v) * blend)`. -/
def adjustChannel (v : ℤ) (blend : ℚ) : ℤ := pyInt ((v : ℚ) + (255 - v) * blend)

/-- Function `adjust_color_for_confidence` from `backend/visuals.py`. -/
def adjust_color_for_confidence (base_color : ℤ × ℤ × ℤ) (confidence : ℚ) :
    ℤ × ℤ × ℤ :=
  let conf := npClip01 confidence
  let blend_factor := 1 - conf
  (adjustChannel base_color.1 blend_factor,
   adjustChannel base_color.2.1 blend_factor,
   adjustChannel base_color.2.2 blend_factor)

theorem adjustChannel_blend_zero (v : ℤ) : adjustChannel v 0 = v := by
  simp [adjustChannel, pyInt_intCast]

theorem adjustChannel_blend_one (v : ℤ) : adjustChannel v 1 = 255 := by
  have h : (v : ℚ) + (255 - v) * 1 = ((255 : ℤ) : ℚ) := by push_cast; ring
  rw [adjustChannel, h, pyInt_intCast]

theorem adjustChannel_anti {v : ℤ} (hv0 : 0 ≤ v) (hv : v ≤ 255)
    {b₁ b₂ : ℚ} (hb : b₁ ≤ b₂) (hb0 : 0 ≤ b₁) :
    adjustChannel v b₁ ≤ adjustChannel v b₂ := by
  have h255 : (0 : ℚ) ≤ 255 - v := by
    have : (v : ℚ) ≤ 255 := by exact_mod_cast hv
    linarith
  have harg : (v : ℚ) + (255 - v) * b₁ ≤ (v : ℚ) + (255 - v) * b₂ := by
    have := mul_le_mul_of_nonneg_left hb h255
    linarith
  have h1 : (0 : ℚ) ≤ (v : ℚ) + (255 - v) * b₁ := by
    have hv0' : (0 : ℚ) ≤ (v : ℚ) := by exact_mod_cast hv0
    have := mul_nonneg h255 hb0
    linarith
  have h2 : (0 : ℚ) ≤ (v : ℚ) + (255 - v) * b₂ := le_trans h1 harg
  unfold adjustChannel
  rw [pyInt_of_nonneg h1, pyInt_of_nonneg h2]
  exact Int.floor_le_floor harg

theorem npClip01_mono {c₁ c₂ : ℚ} (h : c₁ ≤ c₂) : npClip01 c₁ ≤ npClip01 c₂ := by
  unfold npClip01
  exact min_le_min_right 1 (max_le_max_right 0 h) |>.trans_eq rfl

theorem npClip01_nonneg (c : ℚ) : 0 ≤ npClip01 c := by
  unfold npClip01
  rcases le_total (max c 0) 1 with h | h
  · simp [min_eq_left h]
  · simp [min_eq_right h]

theorem npClip01_le_one (c : ℚ) : npClip01 c ≤ 1 := min_le_right _ _

/-- Claim C8 — The annotator's color adjustment lightens each channel
proportionally to `1 - confidence`: confidence `1` returns the base color
unchanged, confidence `0` returns pure white `(255, 255, 255)`, and each
channel is monotonically non-increasing in confidence toward the base
color (for base colors with channels in `[0, 255]`). -/
theorem adjust_color_for_confidence_spec (r g b : ℤ)
    (hr0 : 0 ≤ r) (hr : r ≤ 255) (hg0 : 0 ≤ g) (hg : g ≤ 255)
    (hb0 : 0 ≤ b) (hb : b ≤ 255) (c₁ c₂ : ℚ) (hc : c₁ ≤ c₂) :
    adjust_color_for_confidence (r, g, b) 1 = (r, g, b) ∧
    adjust_color_for_confidence (r, g, b) 0 = (255, 255, 255) ∧
    (adjust_color_for_confidence (r, g, b) c₂).1 ≤
      (adjust_color_for_confidence (r, g, b) c₁).1 ∧
    (adjust_color_for_confidence (r, g, b) c₂).2.1 ≤
      (adjust_color_for_confidence (r, g, b) c₁).2.1 ∧
    (adjust_color_for_confidence (r, g, b) c₂).2.2 ≤
      (adjust_color_for_confidence (r, g, b) c₁).2.2 := by
  have hclip : npClip01 c₁ ≤ npClip01 c₂ := npClip01_mono hc
  have hblend : 1 - npClip01 c₂ ≤ 1 - npClip01 c₁ := by linarith
  have hblend0 : 0 ≤ 1 - npClip01 c₂ := by
    have := npClip01_le_one c₂; linarith
  refine ⟨?_, ?_, ?_, ?_, ?_⟩
  · have h1 : npClip01 1 = 1 := by norm_num [npClip01]
    simp [adjust_color_for_confidence, h1, adjustChannel_blend_zero]
  · have h0 : npClip01 0 = 0 := by norm_num [npClip01]
    simp [adjust_color_for_confidence, h0, adjustChannel_blend_one]
  · exact adjustChannel_anti hr0 hr hblend hblend0
  · exact adjustChannel_anti hg0 hg hblend hblend0
  · exact adjustChannel_anti hb0 hb hblend hblend0

/-- Witness for C8: the potholes base color `(0, 255, 0)` at confidences
`3/4 ≤ 1`: green stays `255`, red and blue channels do not increase. -/
theorem adjust_color_for_confidence_spec_witness :
    adjust_color_for_confidence (0, 255, 0) 1 = (0, 255, 0) ∧
    adjust_color_for_confidence (0, 255, 0) 0 = (255, 255, 255) ∧
    (adjust_color_for_confidence (0, 255, 0) 1).1 ≤
      (adjust_color_for_confidence (0, 255, 0) (3/4)).1 ∧
    (adjust_color_for_confidence (0, 255, 0) 1).2.1 ≤
      (adjust_color_for_confidence (0, 255, 0) (3/4)).2.1 ∧
    (adjust_color_for_confidence (0, 255, 0) 1).2.2 ≤
      (adjust_color_for_confidence (0, 255, 0) (3/4)).2.2 := by
  have h := adjust_color_for_confidence_spec 0 255 0
    (by norm_num) (by norm_num) (by norm_num) (by norm_num)
    (by norm_num) (by norm_num) (3/4) 1 (by norm_num)
  exact ⟨h.1, h.2.1, h.2.2.1, h.2.2.2.1, h.2.2.2.2⟩

/-! ## `backend/app.py` : `upload_image` detection records

```python
for box, confidence, cls in zip(boxes, confidences, classes):
    objects.append({
        "name": result.names[int(cls)],
        "confidence": round(float(confidence), 3),
        "bbox": [round(coord, 2) for coord in box.tolist()]
    })
```

The bbox coordinates from the detector are rounded to two decimals and
stored in upstream order; nothing reorders or drops them.
-/

/-- Python's `round` to an integer: round half to even (banker's rounding). -/
def roundHalfEven (q : ℚ) : ℤ :=
  if q - ⌊q⌋ < 1/2 then ⌊q⌋
  else if 1/2 < q - ⌊q⌋ then ⌊q⌋ + 1
  else if ⌊q⌋ % 2 = 0 then ⌊q⌋ else ⌊q⌋ + 1

/-- Python's `round(q, ndigits)` (exact decimal model). -/
def pyRound (ndigits : ℕ) (q : ℚ) : ℚ :=
  (roundHalfEven (q * 10 ^ ndigits) : ℚ) / 10 ^ ndigits

theorem roundHalfEven_ge_floor (q : ℚ) : ⌊q⌋ ≤ roundHalfEven q := by
  unfold roundHalfEven
  split
  · exact le_refl _
  split
  · omega
  split <;> omega

theorem roundHalfEven_le_floor_add_one (q : ℚ) :
    roundHalfEven q ≤ ⌊q⌋ + 1 := by
  unfold roundHalfEven
  split
  · omega
  split
  · omega
  split <;> omega

theorem roundHalfEven_mono {x y : ℚ} (h : x ≤ y) :
    roundHalfEven x ≤ roundHalfEven y := by
  have hf : ⌊x⌋ ≤ ⌊y⌋ := Int.floor_le_floor h
  rcases eq_or_lt_of_le hf with heq | hlt
  · unfold roundHalfEven
    rw [← heq]
    have hxy : x - ⌊x⌋ ≤ y - ⌊x⌋ := by linarith
    split_ifs <;> first
      | omega
      | (exfalso; linarith)
  · calc roundHalfEven x ≤ ⌊x⌋ + 1 := roundHalfEven_le_floor_add_one x
      _ ≤ ⌊y⌋ := by omega
      _ ≤ roundHalfEven y := roundHalfEven_ge_floor y

theorem pyRound_mono (n : ℕ) {x y : ℚ} (h : x ≤ y) :
    pyRound n x ≤ pyRound n y := by
  unfold pyRound
  have hpow : (0 : ℚ) < 10 ^ n := by positivity
  have hmul : x * 10 ^ n ≤ y * 10 ^ n :=
    mul_le_mul_of_nonneg_right h hpow.le
  have hr : ((roundHalfEven (x * 10 ^ n) : ℤ) : ℚ) ≤
      ((roundHalfEven (y * 10 ^ n) : ℤ) : ℚ) := by
    exact_mod_cast roundHalfEven_mono hmul
  exact (div_le_div_iff_of_pos_right hpow).mpr hr

/-- One detection record as built by `upload_image` in `backend/app.py`. -/
structure Detection where
  name : String
  confidence : ℚ
  bbox : List ℚ
deriving DecidableEq, Repr

/-- The detection record constructor in `upload_image`'s inner loop:
confidence rounded to 3 decimals, bbox coordinates rounded to 2 decimals,
in the order the detector emitted them. -/
def mkDetection (name : String) (confidence : ℚ) (box : ℚ × ℚ × ℚ × ℚ) :
    Detection :=
  { name := name
    confidence := pyRound 3 confidence
    bbox := [pyRound 2 box.1, pyRound 2 box.2.1,
             pyRound 2 box.2.2.1, pyRound 2 box.2.2.2] }

theorem roundHalfEven_intCast (z : ℤ) : roundHalfEven (z : ℚ) = z := by
  unfold roundHalfEven
  rw [Int.floor_intCast, sub_self]
  norm_num

theorem pyRound_intCast (n : ℕ) (z : ℤ) : pyRound n (z : ℚ) = z := by
  unfold pyRound
  rw [show (z : ℚ) * 10 ^ n = ((z * 10 ^ n : ℤ) : ℚ) by push_cast; ring,
    roundHalfEven_intCast]
  push_cast
  have hpow : ((10 : ℚ) ^ n) ≠ 0 := by positivity
  field_simp

/-- Claim C4, counterexample — The upload pipeline does not swap inverted
bounding boxes: an upstream box `(50, 50, 30, 30)` is passed through as
`[50, 50, 30, 30]`, not corrected to `[30, 30, 50, 50]`. -/
theorem upload_bbox_not_swapped :
    (mkDetection "pothole" (9/10) (50, 50, 30, 30)).bbox = [50, 50, 30, 30] ∧
    (mkDetection "pothole" (9/10) (50, 50, 30, 30)).bbox ≠ [30, 30, 50, 50] := by
  have h50 : pyRound 2 (50 : ℚ) = 50 := by exact_mod_cast pyRound_intCast 2 50
  have h30 : pyRound 2 (30 : ℚ) = 30 := by exact_mod_cast pyRound_intCast 2 30
  constructor
  · simp [mkDetection, h50, h30]
  · simp only [mkDetection, h50, h30]
    norm_num

/-- Claim C4, amended — For every Detection produced by the upload pipeline
(inverted upstream boxes included), the returned bbox is the upstream box
with each coordinate rounded to two decimals, in upstream order — the
pipeline neither swaps nor drops it.  The rounding is monotone, so the
returned bbox satisfies `x1 ≤ x2` (resp. `y1 ≤ y2`) whenever the upstream
box does, and an inversion in the returned bbox can only come from an
upstream inversion (the converse fails: two-decimal rounding can collapse
a slight upstream inversion into a degenerate ordered pair). -/
theorem upload_bbox_passthrough (nm : String) (conf : ℚ) (x1 y1 x2 y2 : ℚ) :
    (mkDetection nm conf (x1, y1, x2, y2)).bbox =
      [pyRound 2 x1, pyRound 2 y1, pyRound 2 x2, pyRound 2 y2] ∧
    (x1 ≤ x2 → pyRound 2 x1 ≤ pyRound 2 x2) ∧
    (y1 ≤ y2 → pyRound 2 y1 ≤ pyRound 2 y2) ∧
    (pyRound 2 x2 < pyRound 2 x1 → x2 < x1) ∧
    (pyRound 2 y2 < pyRound 2 y1 → y2 < y1) := by
  refine ⟨rfl, fun hx => pyRound_mono 2 hx, fun hy => pyRound_mono 2 hy,
    ?_, ?_⟩
  · intro hlt
    by_contra hle
    exact absurd (pyRound_mono 2 (not_lt.mp hle)) (not_le.mpr hlt)
  · intro hlt
    by_contra hle
    exact absurd (pyRound_mono 2 (not_lt.mp hle)) (not_le.mpr hlt)

/-- Witness for the amended C4 at the ordered upstream box
`(10, 20, 30.5, 40.25)`: the bbox is the rounded pass-through and keeps
the ordering. -/
theorem upload_bbox_passthrough_witness :
    (mkDetection "garbage" (1/2) (10, 20, 61/2, 161/4)).bbox =
      [pyRound 2 10, pyRound 2 20, pyRound 2 (61/2), pyRound 2 (161/4)] ∧
    pyRound 2 (10 : ℚ) ≤ pyRound 2 (61/2 : ℚ) ∧
    pyRound 2 (20 : ℚ) ≤ pyRound 2 (161/4 : ℚ) := by
  have h := upload_bbox_passthrough "garbage" (1/2) 10 20 (61/2) (161/4)
  exact ⟨h.1, h.2.1 (by norm_num), h.2.2.1 (by norm_num)⟩

/-! ## Image resizing : `backend/app.py` `resize_image` and
`backend/github_ai.py` `GitHubAIClient._ensure_image_size`

```python
def resize_image(image, max_dimension=1280):
    width, height = image.size
    if width <= max_dimension and height <= max_dimension:
        return image
    if width > height:
        resize_factor = max_dimension / width
    else:
        resize_factor = max_dimension / height
    new_width = int(width * resize_factor)
    new_height = int(height * resize_factor)
    return image.resize((new_width, new_height), Image.LANCZOS)
```

`_ensure_image_size` computes the dimensions the other way round: when
`width > height` it assigns `new_width = self.max_image_dimension`
directly (an exact integer) and only the shorter side as
`int(height * (max / width))`; within bounds it returns the image
unchanged.

Python computes `max_dimension / width` and `width * resize_factor` in
IEEE binary64 arithmetic: each operation rounds its exact result to the
nearest representable double (ties to even).  `floatRound` below models
that rounding exactly on positive rationals in the normal range (the
dimension arithmetic here involves no subnormals, overflow or negative
values), so e.g. `int(2139 * (1280/2139))` evaluates to `1279`, not
`1280`.
-/

/-- Round a positive rational to the nearest IEEE binary64 value
(round-to-nearest, ties-to-even), by rounding the 53-bit significand
`q * 2^(52 - exponent)` half-to-even; exact on the normal finite range
used by the dimension arithmetic modelled here.  Zero and negative
inputs (which do not occur here) are handled for totality. -/
def floatRound (q : ℚ) : ℚ :=
  if 0 < q then
    (roundHalfEven (q * 2 ^ ((52 : ℤ) - Int.log 2 q)) : ℚ) *
      2 ^ (Int.log 2 q - 52)
  else if q < 0 then
    -((roundHalfEven (-q * 2 ^ ((52 : ℤ) - Int.log 2 (-q))) : ℚ) *
      2 ^ (Int.log 2 (-q) - 52))
  else 0

/-- Dimension computation of `resize_image` in `backend/app.py`
(default `max_dimension = 1280`): the resize factor `max/longer` and the
two products are computed in binary64, then truncated by `int(...)`. -/
def resize_image_dims (width height max_dimension : ℕ) : ℕ × ℕ :=
  if width ≤ max_dimension ∧ height ≤ max_dimension then (width, height)
  else if height < width then
    (natFloor (floatRound ((width : ℚ) *
        floatRound ((max_dimension : ℚ) / width))),
     natFloor (floatRound ((height : ℚ) *
        floatRound ((max_dimension : ℚ) / width))))
  else
    (natFloor (floatRound ((width : ℚ) *
        floatRound ((max_dimension : ℚ) / height))),
     natFloor (floatRound ((height : ℚ) *
        floatRound ((max_dimension : ℚ) / height))))

/-- Dimension computation of `GitHubAIClient._ensure_image_size` in
`backend/github_ai.py`: the longer side is assigned
`self.max_image_dimension` exactly; only the shorter side goes through
the binary64 product. -/
def ensure_image_size_dims (width height max_dimension : ℕ) : ℕ × ℕ :=
  if width ≤ max_dimension ∧ height ≤ max_dimension then (width, height)
  else if height < width then
    (max_dimension,
     natFloor (floatRound ((height : ℚ) *
        floatRound ((max_dimension : ℚ) / width))))
  else
    (natFloor (floatRound ((width : ℚ) *
        floatRound ((max_dimension : ℚ) / height))),
     max_dimension)

theorem log2_eq_of_bounds {q : ℚ} {e : ℤ}
    (h1 : (2 : ℚ) ^ e ≤ q) (h2 : q < 2 ^ (e + 1)) : Int.log 2 q = e := by
  have hq : 0 < q := lt_of_lt_of_le (by positivity) h1
  have ha : (2 : ℚ) ^ Int.log 2 q ≤ q :=
    Int.zpow_log_le_self (by norm_num) hq
  have hb : q < (2 : ℚ) ^ (Int.log 2 q + 1) :=
    Int.lt_zpow_succ_log_self (by norm_num) q
  by_contra hne
  rcases lt_or_gt_of_ne hne with hlt | hgt
  · have hle : Int.log 2 q + 1 ≤ e := by omega
    have : (2 : ℚ) ^ (Int.log 2 q + 1) ≤ 2 ^ e :=
      zpow_le_zpow_right₀ (by norm_num) hle
    linarith
  · have hle : e + 1 ≤ Int.log 2 q := by omega
    have : (2 : ℚ) ^ (e + 1) ≤ 2 ^ Int.log 2 q :=
      zpow_le_zpow_right₀ (by norm_num) hle
    linarith

theorem roundHalfEven_eq_low {x : ℚ} {n : ℤ}
    (h1 : (n : ℚ) ≤ x) (h2 : x < (n : ℚ) + 1/2) : roundHalfEven x = n := by
  have hf : ⌊x⌋ = n := Int.floor_eq_iff.mpr ⟨h1, by push_cast; linarith⟩
  unfold roundHalfEven
  rw [hf, if_pos (by push_cast; linarith)]

theorem roundHalfEven_eq_high {x : ℚ} {n : ℤ}
    (h1 : (n : ℚ) + 1/2 < x) (h2 : x < (n : ℚ) + 1) :
    roundHalfEven x = n + 1 := by
  have hf : ⌊x⌋ = n := Int.floor_eq_iff.mpr ⟨by linarith, by push_cast; linarith⟩
  unfold roundHalfEven
  rw [hf, if_neg (by push_cast; linarith), if_pos (by push_cast; linarith)]

theorem floatRound_eval {q : ℚ} {e z : ℤ} (hq : 0 < q)
    (h1 : (2 : ℚ) ^ e ≤ q) (h2 : q < 2 ^ (e + 1))
    (hz : roundHalfEven (q * 2 ^ ((52 : ℤ) - e)) = z) :
    floatRound q = (z : ℚ) * 2 ^ (e - 52) := by
  unfold floatRound
  rw [if_pos hq, log2_eq_of_bounds h1 h2, hz]

theorem natFloor_eval {q : ℚ} {n : ℕ}
    (h1 : (n : ℚ) ≤ q) (h2 : q < (n : ℚ) + 1) : natFloor q = n := by
  have hf : ⌊q⌋ = (n : ℤ) :=
    Int.floor_eq_iff.mpr ⟨by exact_mod_cast h1, by push_cast; linarith⟩
  rw [natFloor, hf, Int.toNat_natCast]

theorem fr_div_2139 :
    floatRound ((1280 : ℚ) / 2139) = 5390002359078293 / 9007199254740992 := by
  have h1 : (2 : ℚ) ^ (-1 : ℤ) ≤ (1280 : ℚ) / 2139 := by norm_num
  have h2 : (1280 : ℚ) / 2139 < 2 ^ ((-1 : ℤ) + 1) := by norm_num
  have hz : roundHalfEven (((1280 : ℚ) / 2139) * 2 ^ ((52 : ℤ) - (-1))) =
      5390002359078293 := by
    rw [show ((1280 : ℚ) / 2139) * 2 ^ ((52 : ℤ) - (-1)) =
      11529215046068469760 / 2139 by norm_num]
    exact roundHalfEven_eq_low (by norm_num) (by norm_num)
  rw [floatRound_eval (by norm_num) h1 h2 hz]
  norm_num

theorem fr_mul_2139 :
    floatRound ((2139 : ℚ) * (5390002359078293 / 9007199254740992)) =
      5629499534213119 / 4398046511104 := by
  have h1 : (2 : ℚ) ^ (10 : ℤ) ≤
      (2139 : ℚ) * (5390002359078293 / 9007199254740992) := by norm_num
  have h2 : (2139 : ℚ) * (5390002359078293 / 9007199254740992) <
      2 ^ ((10 : ℤ) + 1) := by norm_num
  have hz : roundHalfEven (((2139 : ℚ) * (5390002359078293 / 9007199254740992)) *
      2 ^ ((52 : ℤ) - 10)) = 5629499534213119 := by
    rw [show ((2139 : ℚ) * (5390002359078293 / 9007199254740992)) *
      2 ^ ((52 : ℤ) - 10) = 11529215046068468727 / 2048 by norm_num]
    exact roundHalfEven_eq_low (by norm_num) (by norm_num)
  rw [floatRound_eval (by norm_num) h1 h2 hz]
  norm_num

theorem fr_mul_1069 :
    floatRound ((1069 : ℚ) * (5390002359078293 / 9007199254740992)) =
      5626867697123726 / 8796093022208 := by
  have h1 : (2 : ℚ) ^ (9 : ℤ) ≤
      (1069 : ℚ) * (5390002359078293 / 9007199254740992) := by norm_num
  have h2 : (1069 : ℚ) * (5390002359078293 / 9007199254740992) <
      2 ^ ((9 : ℤ) + 1) := by norm_num
  have hz : roundHalfEven (((1069 : ℚ) * (5390002359078293 / 9007199254740992)) *
      2 ^ ((52 : ℤ) - 9)) = 5626867697123725 + 1 := by
    rw [show ((1069 : ℚ) * (5390002359078293 / 9007199254740992)) *
      2 ^ ((52 : ℤ) - 9) = 5761912521854695217 / 1024 by norm_num]
    exact roundHalfEven_eq_high (by norm_num) (by norm_num)
  rw [floatRound_eval (by norm_num) h1 h2 hz]
  norm_num

theorem fr_div_4000 :
    floatRound ((1280 : ℚ) / 4000) = 5764607523034235 / 18014398509481984 := by
  have h1 : (2 : ℚ) ^ (-2 : ℤ) ≤ (1280 : ℚ) / 4000 := by norm_num
  have h2 : (1280 : ℚ) / 4000 < 2 ^ ((-2 : ℤ) + 1) := by norm_num
  have hz : roundHalfEven (((1280 : ℚ) / 4000) * 2 ^ ((52 : ℤ) - (-2))) =
      5764607523034234 + 1 := by
    rw [show ((1280 : ℚ) / 4000) * 2 ^ ((52 : ℤ) - (-2)) =
      144115188075855872 / 25 by norm_num]
    exact roundHalfEven_eq_high (by norm_num) (by norm_num)
  rw [floatRound_eval (by norm_num) h1 h2 hz]
  norm_num

theorem fr_mul_4000 :
    floatRound ((4000 : ℚ) * (5764607523034235 / 18014398509481984)) = 1280 := by
  have h1 : (2 : ℚ) ^ (10 : ℤ) ≤
      (4000 : ℚ) * (5764607523034235 / 18014398509481984) := by norm_num
  have h2 : (4000 : ℚ) * (5764607523034235 / 18014398509481984) <
      2 ^ ((10 : ℤ) + 1) := by norm_num
  have hz : roundHalfEven (((4000 : ℚ) * (5764607523034235 / 18014398509481984)) *
      2 ^ ((52 : ℤ) - 10)) = 5629499534213120 := by
    rw [show ((4000 : ℚ) * (5764607523034235 / 18014398509481984)) *
      2 ^ ((52 : ℤ) - 10) = 720575940379279375 / 128 by norm_num]
    exact roundHalfEven_eq_low (by norm_num) (by norm_num)
  rw [floatRound_eval (by norm_num) h1 h2 hz]
  norm_num

theorem fr_mul_3000 :
    floatRound ((3000 : ℚ) * (5764607523034235 / 18014398509481984)) = 960 := by
  have h1 : (2 : ℚ) ^ (9 : ℤ) ≤
      (3000 : ℚ) * (5764607523034235 / 18014398509481984) := by norm_num
  have h2 : (3000 : ℚ) * (5764607523034235 / 18014398509481984) <
      2 ^ ((9 : ℤ) + 1) := by norm_num
  have hz : roundHalfEven (((3000 : ℚ) * (5764607523034235 / 18014398509481984)) *
      2 ^ ((52 : ℤ) - 9)) = 8444249301319680 := by
    rw [show ((3000 : ℚ) * (5764607523034235 / 18014398509481984)) *
      2 ^ ((52 : ℤ) - 9) = 2161727821137838125 / 256 by norm_num]
    exact roundHalfEven_eq_low (by norm_num) (by norm_num)
  rw [floatRound_eval (by norm_num) h1 h2 hz]
  norm_num

theorem abs_roundHalfEven_sub (x : ℚ) : |(roundHalfEven x : ℚ) - x| ≤ 1/2 := by
  have hfl := Int.floor_le x
  have hfu := Int.lt_floor_add_one x
  unfold roundHalfEven
  split_ifs with h1 h2 h3 <;> rw [abs_le] <;> constructor <;> push_cast at * <;>
    linarith

/-- The relative error of one binary64 rounding: for positive `q`,
`|floatRound q - q| ≤ q * 2^(-53)` (half an ulp). -/
theorem floatRound_err {q : ℚ} (hq : 0 < q) :
    |floatRound q - q| ≤ q * 2 ^ (-53 : ℤ) := by
  have hlow : (2 : ℚ) ^ Int.log 2 q ≤ q :=
    Int.zpow_log_le_self (by norm_num) hq
  unfold floatRound
  rw [if_pos hq]
  set e := Int.log 2 q with he
  set m := q * 2 ^ ((52 : ℤ) - e) with hm
  have htwo : (2 : ℚ) ≠ 0 := by norm_num
  have hab : (2 : ℚ) ^ ((52 : ℤ) - e) * 2 ^ (e - 52) = 1 := by
    rw [← zpow_add₀ htwo]
    norm_num
  have hmb : m * 2 ^ (e - 52) = q := by
    rw [hm, mul_assoc, hab, mul_one]
  have hkey : (roundHalfEven m : ℚ) * 2 ^ (e - 52) - q
      = ((roundHalfEven m : ℚ) - m) * 2 ^ (e - 52) := by
    rw [sub_mul, hmb]
  rw [hkey, abs_mul]
  have hbpos : (0 : ℚ) < 2 ^ (e - 52) := by positivity
  rw [abs_of_pos hbpos]
  have hhalf : |(roundHalfEven m : ℚ) - m| ≤ 1/2 := abs_roundHalfEven_sub m
  have step1 : |(roundHalfEven m : ℚ) - m| * 2 ^ (e - 52) ≤
      (1/2) * 2 ^ (e - 52) :=
    mul_le_mul_of_nonneg_right hhalf hbpos.le
  have ha2 : (1/2 : ℚ) * 2 ^ (e - 52) = 2 ^ (e - 53) := by
    rw [show (1/2 : ℚ) = 2 ^ (-1 : ℤ) by norm_num, ← zpow_add₀ htwo]
    congr 1
    ring
  have hb2 : (2 : ℚ) ^ (e - 53) = 2 ^ e * 2 ^ (-53 : ℤ) := by
    rw [← zpow_add₀ htwo]
    congr 1
  have step2 : (2 : ℚ) ^ e * 2 ^ (-53 : ℤ) ≤ q * 2 ^ (-53 : ℤ) :=
    mul_le_mul_of_nonneg_right hlow (by positivity)
  calc |(roundHalfEven m : ℚ) - m| * 2 ^ (e - 52)
      ≤ (1/2) * 2 ^ (e - 52) := step1
    _ = 2 ^ e * 2 ^ (-53 : ℤ) := by rw [ha2, hb2]
    _ ≤ q * 2 ^ (-53 : ℤ) := step2

/-- Claim C9, counterexample — For the 2139×1069 image with maximum
dimension 1280, `resize_image` computes
`int(2139 * (1280/2139)) = int(1279.9999999999998) = 1279` in binary64
arithmetic: the resized longer side is 1279, not exactly the maximum, and
the result disagrees with `_ensure_image_size`, which assigns the longer
side 1280 directly. -/
theorem resize_image_dims_one_pixel_short :
    resize_image_dims 2139 1069 1280 = (1279, 639) ∧
    max (resize_image_dims 2139 1069 1280).1
      (resize_image_dims 2139 1069 1280).2 = 1279 ∧
    ensure_image_size_dims 2139 1069 1280 = (1280, 639) ∧
    resize_image_dims 2139 1069 1280 ≠ ensure_image_size_dims 2139 1069 1280 := by
  have hn1 : natFloor ((5629499534213119 : ℚ) / 4398046511104) = 1279 :=
    natFloor_eval (by norm_num) (by norm_num)
  have hn2 : natFloor ((5626867697123726 : ℚ) / 8796093022208) = 639 :=
    natFloor_eval (by norm_num) (by norm_num)
  have hr : resize_image_dims 2139 1069 1280 = (1279, 639) := by
    unfold resize_image_dims
    rw [if_neg (by omega), if_pos (by omega)]
    push_cast
    rw [fr_div_2139, fr_mul_2139, fr_mul_1069, hn1, hn2]
  have he : ensure_image_size_dims 2139 1069 1280 = (1280, 639) := by
    unfold ensure_image_size_dims
    rw [if_neg (by omega), if_pos (by omega)]
    push_cast
    rw [fr_div_2139, fr_mul_1069, hn2]
  refine ⟨hr, ?_, he, ?_⟩
  · rw [hr]
    decide
  · rw [hr, he]
    simp

/-- Claim C9, amended — An image already within bounds is returned
unchanged by both implementations.  For a wide oversized image
(`h < w`, `M < w`, with `M` in the practically relevant range up to
`2^40`): `_ensure_image_size` returns a longer side exactly equal to the
maximum `M`; `resize_image` computes the longer side in binary64 floating
point, so it equals `M` or falls exactly one pixel short; both agree on
the shorter side, which preserves the aspect ratio within integer
rounding (`h*M/w - 5/4 ≤ shorter ≤ h*M/w + 1/4`).  On the spec's example
4000×3000 with maximum 1280 both implementations return `(1280, 960)`. -/
theorem resize_image_dims_float_spec (w h M : ℕ) (hh : 0 < h) (hwh : h < w)
    (hMw : M < w) (hM : 0 < M) (hMb : (M : ℚ) ≤ 2 ^ 40) :
    (∀ w2 h2 M2 : ℕ, w2 ≤ M2 → h2 ≤ M2 →
      resize_image_dims w2 h2 M2 = (w2, h2) ∧
      ensure_image_size_dims w2 h2 M2 = (w2, h2)) ∧
    (M - 1 ≤ (resize_image_dims w h M).1 ∧ (resize_image_dims w h M).1 ≤ M) ∧
    (ensure_image_size_dims w h M).1 = M ∧
    (resize_image_dims w h M).2 = (ensure_image_size_dims w h M).2 ∧
    ((h : ℚ) * ((M : ℚ) / w) - 5/4 ≤ ((resize_image_dims w h M).2 : ℚ) ∧
      ((resize_image_dims w h M).2 : ℚ) ≤ (h : ℚ) * ((M : ℚ) / w) + 1/4) ∧
    resize_image_dims 4000 3000 1280 = (1280, 960) ∧
    ensure_image_size_dims 4000 3000 1280 = (1280, 960) := by
  have hbranch : ¬(w ≤ M ∧ h ≤ M) := by omega
  have hres : resize_image_dims w h M =
      (natFloor (floatRound ((w : ℚ) * floatRound ((M : ℚ) / w))),
       natFloor (floatRound ((h : ℚ) * floatRound ((M : ℚ) / w)))) := by
    unfold resize_image_dims
    rw [if_neg hbranch, if_pos hwh]
  have hens : ensure_image_size_dims w h M =
      (M, natFloor (floatRound ((h : ℚ) * floatRound ((M : ℚ) / w)))) := by
    unfold ensure_image_size_dims
    rw [if_neg hbranch, if_pos hwh]
  have hw0 : 0 < w := lt_trans hh hwh
  have hwQ : (0 : ℚ) < w := by exact_mod_cast hw0
  have hMQ : (0 : ℚ) < M := by exact_mod_cast hM
  have hhQ : (0 : ℚ) < h := by exact_mod_cast hh
  have hhw : (h : ℚ) ≤ w := by exact_mod_cast hwh.le
  have hq1 : (0 : ℚ) < (M : ℚ) / w := div_pos hMQ hwQ
  have hu : ((2 : ℚ) ^ (-53 : ℤ)) = 1 / 9007199254740992 := by norm_num
  have hwf : (w : ℚ) * ((M : ℚ) / w) = M := by field_simp
  set t := (h : ℚ) * ((M : ℚ) / w) with ht
  have ht_pos : 0 < t := mul_pos hhQ hq1
  have ht_le : t ≤ (M : ℚ) := by
    rw [ht]
    calc (h : ℚ) * ((M : ℚ) / w)
        ≤ (w : ℚ) * ((M : ℚ) / w) :=
          mul_le_mul_of_nonneg_right hhw hq1.le
      _ = M := hwf
  -- stage 1: the factor f = floatRound (M / w)
  have herr1 := floatRound_err hq1
  rw [hu, abs_le] at herr1
  set f := floatRound ((M : ℚ) / w) with hfdef
  have hf_pos : 0 < f := by
    have h1 := herr1.1
    have : (M : ℚ) / w * (1 / 9007199254740992) < (M : ℚ) / w := by linarith
    linarith
  -- stage 2: the long side v = floatRound (w * f)
  have hp_pos : 0 < (w : ℚ) * f := mul_pos hwQ hf_pos
  have herr2 := floatRound_err hp_pos
  rw [hu, abs_le] at herr2
  set v := floatRound ((w : ℚ) * f) with hvdef
  have hp_le : (w : ℚ) * f ≤ (M : ℚ) + (M : ℚ) * (1 / 9007199254740992) := by
    have hstep := mul_le_mul_of_nonneg_left herr1.2 hwQ.le
    have e1 : (w : ℚ) * (f - (M : ℚ) / w) = (w : ℚ) * f - M := by
      rw [mul_sub, hwf]
    have e2 : (w : ℚ) * ((M : ℚ) / w * (1 / 9007199254740992)) =
        (M : ℚ) * (1 / 9007199254740992) := by
      rw [← mul_assoc, hwf]
    rw [e1, e2] at hstep
    linarith
  have hp_ge : (M : ℚ) - (M : ℚ) * (1 / 9007199254740992) ≤ (w : ℚ) * f := by
    have hstep := mul_le_mul_of_nonneg_left herr1.1 hwQ.le
    have e1 : (w : ℚ) * (f - (M : ℚ) / w) = (w : ℚ) * f - M := by
      rw [mul_sub, hwf]
    have e2 : (w : ℚ) * -((M : ℚ) / w * (1 / 9007199254740992)) =
        -((M : ℚ) * (1 / 9007199254740992)) := by
      rw [mul_neg, ← mul_assoc, hwf]
    rw [e1, e2] at hstep
    linarith
  have hv_lt : v < (M : ℚ) + 1 := by
    have h1 := herr2.2
    linarith [hMb]
  have hv_gt : (M : ℚ) - 1 < v := by
    have h1 := herr2.1
    linarith [hMb]
  have hfl_le : ⌊v⌋ ≤ (M : ℤ) := by
    have h1 : ⌊v⌋ < (M : ℤ) + 1 := Int.floor_lt.mpr (by push_cast; linarith)
    omega
  have hfl_ge : (M : ℤ) - 1 ≤ ⌊v⌋ := Int.le_floor.mpr (by push_cast; linarith)
  -- stage 3: the short side g = floatRound (h * f)
  have hhf_pos : 0 < (h : ℚ) * f := mul_pos hhQ hf_pos
  have herr3 := floatRound_err hhf_pos
  rw [hu, abs_le] at herr3
  set g := floatRound ((h : ℚ) * f) with hgdef
  have hhf_le : (h : ℚ) * f ≤ t + t * (1 / 9007199254740992) := by
    have hstep := mul_le_mul_of_nonneg_left herr1.2 hhQ.le
    have e1 : (h : ℚ) * (f - (M : ℚ) / w) = (h : ℚ) * f - t := by
      rw [mul_sub, ht]
    have e2 : (h : ℚ) * ((M : ℚ) / w * (1 / 9007199254740992)) =
        t * (1 / 9007199254740992) := by
      rw [← mul_assoc, ht]
    rw [e1, e2] at hstep
    linarith
  have hhf_ge : t - t * (1 / 9007199254740992) ≤ (h : ℚ) * f := by
    have hstep := mul_le_mul_of_nonneg_left herr1.1 hhQ.le
    have e1 : (h : ℚ) * (f - (M : ℚ) / w) = (h : ℚ) * f - t := by
      rw [mul_sub, ht]
    have e2 : (h : ℚ) * -((M : ℚ) / w * (1 / 9007199254740992)) =
        -(t * (1 / 9007199254740992)) := by
      rw [mul_neg, ← mul_assoc, ht]
    rw [e1, e2] at hstep
    linarith
  have hg_le : g ≤ t + 1/4 := by
    have h1 := herr3.2
    linarith [ht_le, hMb]
  have hg_ge : t - 1/4 ≤ g := by
    have h1 := herr3.1
    linarith [ht_le, hMb]
  have hg_pos : 0 < g := by
    have h1 := herr3.1
    linarith
  have hgcast : ((natFloor g : ℕ) : ℚ) = ((⌊g⌋ : ℤ) : ℚ) := by
    have hz : ((natFloor g : ℕ) : ℤ) = ⌊g⌋ := by
      rw [natFloor]
      exact Int.toNat_of_nonneg (Int.floor_nonneg.mpr hg_pos.le)
    exact_mod_cast hz
  -- concrete 4000×3000 example
  have hn1280 : natFloor (1280 : ℚ) = 1280 :=
    natFloor_eval (by norm_num) (by norm_num)
  have hn960 : natFloor (960 : ℚ) = 960 :=
    natFloor_eval (by norm_num) (by norm_num)
  have hc1 : resize_image_dims 4000 3000 1280 = (1280, 960) := by
    unfold resize_image_dims
    rw [if_neg (by omega), if_pos (by omega)]
    push_cast
    rw [fr_div_4000, fr_mul_4000, fr_mul_3000, hn1280, hn960]
  have hc2 : ensure_image_size_dims 4000 3000 1280 = (1280, 960) := by
    unfold ensure_image_size_dims
    rw [if_neg (by omega), if_pos (by omega)]
    push_cast
    rw [fr_div_4000, fr_mul_3000, hn960]
  refine ⟨?_, ?_, ?_, ?_, ?_, hc1, hc2⟩
  · intro w2 h2 M2 hw2 hh2
    exact ⟨by unfold resize_image_dims; rw [if_pos ⟨hw2, hh2⟩],
           by unfold ensure_image_size_dims; rw [if_pos ⟨hw2, hh2⟩]⟩
  · rw [hres]
    dsimp only
    constructor
    · unfold natFloor
      omega
    · unfold natFloor
      omega
  · rw [hens]
  · rw [hres, hens]
  · rw [hres]
    dsimp only
    rw [hgcast]
    have h1 : ((⌊g⌋ : ℤ) : ℚ) ≤ g := Int.floor_le g
    have h2 : g < ((⌊g⌋ : ℤ) : ℚ) + 1 := Int.lt_floor_add_one g
    constructor <;> linarith

/-- Witness for the amended C9 at the counterexample image 2139×1069 with
maximum 1280 (and the in-bounds image 640×480): the resized longer side
lands in `[1279, 1280]`, `_ensure_image_size`'s longer side is exactly
1280, and the 4000×3000 example gives `(1280, 960)`. -/
theorem resize_image_dims_float_spec_witness :
    resize_image_dims 640 480 1280 = (640, 480) ∧
    1279 ≤ (resize_image_dims 2139 1069 1280).1 ∧
    (resize_image_dims 2139 1069 1280).1 ≤ 1280 ∧
    (ensure_image_size_dims 2139 1069 1280).1 = 1280 ∧
    resize_image_dims 4000 3000 1280 = (1280, 960) := by
  have h := resize_image_dims_float_spec 2139 1069 1280 (by norm_num)
    (by norm_num) (by norm_num) (by norm_num) (by norm_num)
  refine ⟨(h.1 640 480 1280 (by norm_num) (by norm_num)).1, ?_,
    h.2.1.2, h.2.2.1, h.2.2.2.2.2.1⟩
  have h1 := h.2.1.1
  omega

/-! ## `backend/app.py` : `evaluate_image`'s fallback path

```python
return jsonify({
    "status": "success",
    "evaluation": "analysis:",
    "note": "This analysis was generated using a local fallback system as the advanced AI analysis service was unavailable."
})
```

This is the only fallback in the repository: when the AI interpretation
fails or raises, `evaluate_image` returns this object.  It does not
inspect the detections at all.
-/

/-- The body of the `/evaluate` response. -/
structure EvalResponse where
  status : String
  evaluation : String
  note : Option String
deriving DecidableEq, Repr

/-- The fallback response `evaluate_image` returns when the AI
interpretation fails or is unavailable (`backend/app.py`, lines 376-380).
It is built without reading `detections`. -/
def evaluate_image_fallback (detections : List (String × List Detection)) :
    EvalResponse :=
  { status := "success"
    evaluation := "analysis:"
    note := some ("This analysis was generated using a local fallback " ++
      "system as the advanced AI analysis service was unavailable.") }

/-- Predicate: `pat` occurs as a contiguous substring of `s`. -/
def mentionsText (s pat : String) : Prop := pat.data <:+: s.data

instance (s pat : String) : Decidable (mentionsText s pat) :=
  List.decidableInfix pat.data s.data

/-- A concrete Detection Set `{"potholes": [3 detections],
"garbage_detection": []}` — the failing input of C3. -/
def threePotholesNoGarbage : List (String × List Detection) :=
  [("potholes",
    [mkDetection "pothole" (9/10) (10, 10, 20, 20),
     mkDetection "pothole" (8/10) (30, 30, 40, 40),
     mkDetection "pothole" (7/10) (50, 50, 60, 60)]),
   ("garbage_detection", [])]

/-- Claim C3 — Evaluating the fallback at the Detection Set
`{"potholes": [3 detections], "garbage_detection": []}`: the code returns
the constant evaluation text `"analysis:"`, which mentions neither
`"Multiple potholes detected (3)"` nor garbage; no rule-based per-category
analysis exists.  (The spec's Local Fallback Analyzer is absent from the
code, while the response's own `note` claims an analysis was generated —
the code contradicts its own documentation.) -/
theorem evaluate_image_fallback_constant :
    (evaluate_image_fallback threePotholesNoGarbage).evaluation =
      "analysis:" ∧
    ¬ mentionsText (evaluate_image_fallback threePotholesNoGarbage).evaluation
        "Multiple potholes detected (3)" ∧
    ¬ mentionsText (evaluate_image_fallback threePotholesNoGarbage).evaluation
        "garbage" ∧
    (evaluate_image_fallback threePotholesNoGarbage).evaluation =
      (evaluate_image_fallback []).evaluation := by
  refine ⟨rfl, ?_, ?_, rfl⟩ <;> decide

/-! ## `backend/app.py` : `upload_image`'s result merging

```python
combined_results = {}
for model_name, model in models.items():
    results = model(image)
    objects = []
    for result in results:
        ...
        for box, confidence, cls in zip(boxes, confidences, classes):
            objects.append({...})
    combined_results[model_name] = objects
```

`models` is the statically configured dict
`{"potholes": ..., "garbage_detection": ...}`; each detector's key is
assigned exactly once, in configuration order, even when `objects` is
empty.
-/

/-- The configured detector names from `backend/app.py` (`models` dict). -/
def model_names : List String := ["potholes", "garbage_detection"]

/-- One raw detection as emitted by a detector (class name, confidence,
box in `xyxy` order), before `upload_image` normalizes it. -/
structure RawDet where
  name : String
  conf : ℚ
  box : ℚ × ℚ × ℚ × ℚ
deriving DecidableEq, Repr

/-- The per-detector record list built by `upload_image`'s inner loop,
in detector output order. -/
def build_objects (raws : List RawDet) : List Detection :=
  raws.map (fun rd => mkDetection rd.name rd.conf rd.box)

/-- Mapping `combined_results` as built by `upload_image`: one entry per
configured detector, in configuration order. -/
def combined_results (raw : String → List RawDet) :
    List (String × List Detection) :=
  model_names.map (fun n => (n, build_objects (raw n)))

/-- Claim C7 — For every assignment of detector outputs, the merge produces
exactly one key per configured detector (keys in configuration order,
without duplicates), each mapped to that detector's records in output
order, including an empty sequence for detectors that found nothing. -/
theorem combined_results_spec (raw : String → List RawDet) :
    (combined_results raw).map Prod.fst = model_names ∧
    ((combined_results raw).map Prod.fst).Nodup ∧
    List.lookup "potholes" (combined_results raw) =
      some (build_objects (raw "potholes")) ∧
    List.lookup "garbage_detection" (combined_results raw) =
      some (build_objects (raw "garbage_detection")) ∧
    (∀ n dets, (n, dets) ∈ combined_results raw →
      dets = build_objects (raw n) ∧ dets.length = (raw n).length) ∧
    (raw "garbage_detection" = [] →
      List.lookup "garbage_detection" (combined_results raw) = some []) := by
  refine ⟨rfl, ?_, rfl, rfl, ?_, ?_⟩
  · rw [show (combined_results raw).map Prod.fst = model_names from rfl]
    decide
  · intro n dets hmem
    simp only [combined_results, model_names, List.map_cons, List.map_nil,
      List.mem_cons, List.mem_singleton, List.not_mem_nil, or_false] at hmem
    rcases hmem with h | h <;>
      · rw [Prod.mk.injEq] at h
        obtain ⟨hn, hd⟩ := h
        subst hn
        subst hd
        exact ⟨rfl, by simp [build_objects]⟩
  · intro hempty
    have hb : build_objects (raw "garbage_detection") = [] := by
      rw [hempty]
      rfl
    rw [show List.lookup "garbage_detection" (combined_results raw) =
      some (build_objects (raw "garbage_detection")) from rfl, hb]

/-! ## `backend/github_ai.py` : `update_model_based_on_feedback`

```python
is_correct = feedback_entry.get("correct") == "Yes"
...
"analysis": {
    "feedback_type": "positive" if is_correct else "negative",
    ...
}
```

The `correct` field arrives as an arbitrary JSON value; Python's `==`
between a string and any non-equal-typed value is `False`.
-/

/-- A Python value that the `correct` field of a feedback entry may hold. -/
inductive PyVal where
  | vstr (s : String)
  | vbool (b : Bool)
  | vnone
deriving DecidableEq, Repr

/-- Python `feedback_entry.get("correct") == "Yes"`: equality against the
string `"Yes"`; values of any other type (booleans, `None`) compare
unequal. -/
def is_correct (correct : PyVal) : Bool := correct = PyVal.vstr "Yes"

/-- The enriched classification stored by `update_model_based_on_feedback`:
`"positive" if is_correct else "negative"`. -/
def feedback_type (correct : PyVal) : String :=
  if is_correct correct then "positive" else "negative"

/-- Claim C10 — The stored enriched classification is `"positive"` iff the
entry's `correct` field equals the string `"Yes"`; any other value,
including the boolean `true`, is classified `"negative"`. -/
theorem feedback_type_spec (correct : PyVal) :
    (feedback_type correct = "positive" ↔ correct = PyVal.vstr "Yes") ∧
    feedback_type (PyVal.vbool true) = "negative" ∧
    feedback_type PyVal.vnone = "negative" := by
  refine ⟨?_, rfl, rfl⟩
  constructor
  · intro h
    by_contra hne
    have hic : is_correct correct = false := by
      simp [is_correct, hne]
    simp [feedback_type, hic] at h
  · intro h
    subst h
    rfl

/-! ## `backend/app.py` : `clear_reports` and
`backend/report_handler.py` : `get_reports_by_username`

```python
clear_reports: instead of deleting, mark reports as not visible
result = reports_collection.update_many(
    {"username": username},
    {"$set": {"visible": False}}
)

get_reports_by_username: only return reports marked as visible
results = list(reports_collection.find(
    {"username": username, "visible": True}
).sort("timestamp", -1))
```

`save_user_report` writes every report to both `reports_collection` (the
live store) and `all_reports_collection` (the audit store, "keeps all
reports permanently"); `clear_reports` touches only the live store.
-/

/-- A report document (`report_handler.save_user_report`). -/
structure Report where
  username : String
  location : String
  details : String
  image : String
  timestamp : ℕ
  visible : Bool
deriving DecidableEq, Repr

/-- The two collections: `reports_collection` (live) and
`all_reports_collection` (audit). -/
structure ReportStore where
  live : List Report
  audit : List Report
deriving DecidableEq, Repr

/-- Descending-timestamp order used by `.sort("timestamp", -1)`. -/
def tsDesc (a b : Report) : Prop := b.timestamp ≤ a.timestamp

instance : DecidableRel tsDesc := fun a b =>
  inferInstanceAs (Decidable (b.timestamp ≤ a.timestamp))

instance : IsTotal Report tsDesc :=
  ⟨fun a b => le_total b.timestamp a.timestamp⟩

instance : IsTrans Report tsDesc :=
  ⟨fun _ _ _ hab hbc => le_trans hbc hab⟩

/-- Function `save_user_report`: inserts the document (visible defaults `true`)
into both the live and the audit store. -/
def save_user_report (r : Report) (s : ReportStore) : ReportStore :=
  { live := s.live ++ [{ r with visible := true }],
    audit := s.audit ++ [{ r with visible := true }] }

/-- Function `clear_reports` (`backend/app.py`): sets `visible := false` on every
report of the user in the live store; deletes nothing; does not touch the
audit store. -/
def clear_reports (username : String) (s : ReportStore) : ReportStore :=
  { live := s.live.map (fun r =>
      if r.username = username then { r with visible := false } else r),
    audit := s.audit }

/-- Function `get_reports_by_username` (`backend/report_handler.py`): the user's
visible reports, sorted by timestamp descending. -/
def get_reports_by_username (username : String) (s : ReportStore) :
    List Report :=
  List.insertionSort tsDesc
    (s.live.filter (fun r => r.username == username && r.visible))

/-- Claim C6 — After `clear_reports user`, every report of that user in the
live store has `visible = false` and no record is deleted; retrieval for
that user returns only reports with `visible = true` sorted by timestamp
descending — hence the empty list — and the audit store is unchanged. -/
theorem clear_reports_spec (username : String) (s : ReportStore) :
    (∀ r ∈ (clear_reports username s).live,
      r.username = username → r.visible = false) ∧
    (clear_reports username s).live.length = s.live.length ∧
    get_reports_by_username username (clear_reports username s) = [] ∧
    (clear_reports username s).audit = s.audit ∧
    (∀ r ∈ get_reports_by_username username s,
      r.username = username ∧ r.visible = true) ∧
    (get_reports_by_username username s).Sorted tsDesc := by
  refine ⟨?_, by simp [clear_reports], ?_, rfl, ?_, ?_⟩
  · intro r hr hname
    simp only [clear_reports, List.mem_map] at hr
    obtain ⟨a, _, ha⟩ := hr
    by_cases h : a.username = username
    · rw [← ha, if_pos h]
    · rw [← ha, if_neg h] at hname ⊢
      exact absurd hname h
  · unfold get_reports_by_username
    have hfil : (clear_reports username s).live.filter
        (fun r => r.username == username && r.visible) = [] := by
      rw [List.filter_eq_nil_iff]
      intro r hr
      simp only [clear_reports, List.mem_map] at hr
      obtain ⟨a, _, ha⟩ := hr
      by_cases h : a.username = username
      · rw [← ha, if_pos h]
        simp
      · rw [← ha, if_neg h]
        simp [h]
    rw [hfil]
    rfl
  · intro r hr
    unfold get_reports_by_username at hr
    have hmem := (List.perm_insertionSort tsDesc _).mem_iff.mp hr
    have := List.of_mem_filter hmem
    simpa using this
  · exact List.sorted_insertionSort tsDesc _

/-! ## `backend/github_ai.py` : `GitHubAIClient` and the retry loop

```python
def __init__(self):
    self.token = os.getenv("GITHUB_TOKEN")
    if not self.token:
        raise ValueError("GITHUB_TOKEN environment variable not set")
    ...
    self.headers = {
        "Authorization": f"Bearer {self.token}",
        "Content-Type": "application/json"
    }
    self.max_retries = int(os.getenv("GITHUB_AI_MAX_RETRIES", "2"))
```

The client holds exactly one bearer token, fixed at initialization; the
headers never change afterwards.  The request loop
(`generate_interpretation`):

```python
retry_count = 0
while retry_count <= self.max_retries:
    try:
        response = requests.post(..., headers=self.headers, ...)
        if response.status_code == 200:
            ... return {"status": "success", "evaluation": clean_content}
            ... else: return {"status": "error", "message": "Invalid response format from GitHub AI"}
        elif response.status_code == 429:  # Rate limit
            retry_count += 1
            wait_time = min(2 ** retry_count, 30)
            time.sleep(wait_time)
            continue
        else:
            return {"status": "error", "message": f"GitHub AI request failed: {response.status_code}"}
    except requests.exceptions.Timeout:
        retry_count += 1
        if retry_count <= self.max_retries:
            wait_time = min(2 ** retry_count, 30)
            time.sleep(wait_time)
        else:
            return {"status": "error", "message": "GitHub AI request timed out after multiple retries"}
    except Exception as e:
        return {"status": "error", "message": f"Error during GitHub AI request: {str(e)}"}
return {"status": "error", "message": "Failed to get response from GitHub AI after multiple attempts"}
```
-/

/-- The `GitHubAIClient` configuration fixed by `__init__`: the single
bearer token from `GITHUB_TOKEN` and `max_retries`. -/
structure Client where
  token : String
  max_retries : ℕ
deriving DecidableEq, Repr

/-- The `Authorization` header value built in `__init__` and used,
unchanged, by every request of the client. -/
def authHeader (c : Client) : String := "Bearer " ++ c.token

/-- The set of credentials a `GitHubAIClient` ever holds: exactly the one
token read from `GITHUB_TOKEN` in `__init__` — there is no pool and no
rotation operation in the code. -/
def credential_pool (c : Client) : List String := [c.token]

/-- One outcome of `requests.post` as the loop observes it: an HTTP
response with a status code and the parsed `choices` contents, a timeout,
or another exception. -/
inductive HttpOutcome where
  | response (status : ℕ) (choices : List String)
  | timeout
  | exception (msg : String)

/-- The structured result `generate_interpretation` returns. -/
inductive AIResult where
  | success (evaluation : String)
  | error (message : String)
deriving DecidableEq, Repr

/-- The observable trace of one call to `generate_interpretation`: the
backoff sleeps performed (in seconds, in order), the `Authorization`
header used by each attempt, and the returned result. -/
structure AITrace where
  sleeps : List ℕ
  auths : List String
  result : AIResult
deriving DecidableEq, Repr

/-- Backoff sleep `min(2 ** retry_count, 30)`, computed *after* the
retry counter has been incremented. -/
def wait_time (retry_count : ℕ) : ℕ := min (2 ^ retry_count) 30

/-- Test whether `p` is an initial segment of `s`, on character lists. -/
def matchesAt : List Char → List Char → Bool
  | [], _ => true
  | _ :: _, [] => false
  | p :: ps, c :: cs => p = c && matchesAt ps cs

/-- Python `content.find(pat)`: index of the first occurrence, if any. -/
def findSub (pat : List Char) : List Char → Option ℕ
  | [] => if matchesAt pat [] then some 0 else none
  | c :: cs =>
    if matchesAt pat (c :: cs) then some 0
    else (findSub pat cs).map (· + 1)

/-- Method `GitHubAIClient._remove_issue_locations_section`: splice out
everything from `[ISSUE_LOCATIONS]` to `[/ISSUE_LOCATIONS]` inclusive;
return the content unchanged when either marker is missing. -/
def remove_issue_locations_section (content : List Char) : List Char :=
  let startMarker := "[ISSUE_LOCATIONS]".data
  let endMarker := "[/ISSUE_LOCATIONS]".data
  match findSub startMarker content, findSub endMarker content with
  | some si, some ei => content.take si ++ content.drop (ei + endMarker.length)
  | _, _ => content

/-- The non-retryable failure message
`f"GitHub AI request failed: {response.status_code}"`. -/
def failMsg (status : ℕ) : String :=
  "GitHub AI request failed: " ++ toString status

/-- The message returned when the `while` loop exhausts its retries. -/
def exhaustedMsg : String :=
  "Failed to get response from GitHub AI after multiple attempts"

/-- The body of `generate_interpretation`'s `while retry_count <=
self.max_retries` loop.  `responses attempt` is the outcome of the
`attempt`-th `requests.post`; `fuel = max_retries + 1 - retry_count`
counts the remaining loop entries (the loop condition is false exactly
when `fuel = 0`, every `continue` has incremented `retry_count`). -/
def runAttempts (c : Client) (responses : ℕ → HttpOutcome) :
    List ℕ → List String → ℕ → ℕ → ℕ → AITrace
  | sleeps, auths, _, _, 0 => ⟨sleeps, auths, .error exhaustedMsg⟩
  | sleeps, auths, attempt, retry_count, fuel + 1 =>
    let auths' := auths ++ [authHeader c]
    match responses attempt with
    | .response status choices =>
      if status = 200 then
        match choices with
        | content :: _ =>
          ⟨sleeps, auths',
           .success (String.mk (remove_issue_locations_section content.data))⟩
        | [] => ⟨sleeps, auths', .error "Invalid response format from GitHub AI"⟩
      else if status = 429 then
        runAttempts c responses (sleeps ++ [wait_time (retry_count + 1)])
          auths' (attempt + 1) (retry_count + 1) fuel
      else ⟨sleeps, auths', .error (failMsg status)⟩
    | .timeout =>
      if retry_count + 1 ≤ c.max_retries then
        runAttempts c responses (sleeps ++ [wait_time (retry_count + 1)])
          auths' (attempt + 1) (retry_count + 1) fuel
      else ⟨sleeps, auths',
        .error "GitHub AI request timed out after multiple retries"⟩
    | .exception m =>
      ⟨sleeps, auths', .error ("Error during GitHub AI request: " ++ m)⟩

/-- Method `generate_interpretation`: run the retry loop from `retry_count = 0`. -/
def generate_interpretation (c : Client) (responses : ℕ → HttpOutcome) :
    AITrace :=
  runAttempts c responses [] [] 0 0 (c.max_retries + 1)

/-- Behaviour of the loop when every response is HTTP 429: each entry
appends one backoff sleep `wait_time (retry_count + 1)` (the counter is
incremented before the sleep is computed) and one unchanged
`Authorization` header, until the retry budget is exhausted. -/
theorem runAttempts_allRateLimited (c : Client) (rs : ℕ → HttpOutcome)
    (hall : ∀ i, rs i = .response 429 []) :
    ∀ (fuel : ℕ) (sleeps : List ℕ) (auths : List String) (attempt rc : ℕ),
    runAttempts c rs sleeps auths attempt rc fuel =
      ⟨sleeps ++ (List.range fuel).map (fun i => wait_time (rc + 1 + i)),
       auths ++ List.replicate fuel (authHeader c),
       .error exhaustedMsg⟩ := by
  intro fuel
  induction fuel with
  | zero => intro sleeps auths attempt rc; simp [runAttempts]
  | succ fuel ih =>
    intro sleeps auths attempt rc
    have hcomp : ((fun i => wait_time (rc + 1 + i)) ∘ Nat.succ) =
        (fun i => wait_time (rc + 1 + 1 + i)) := by
      funext i
      show wait_time (rc + 1 + (i + 1)) = wait_time (rc + 1 + 1 + i)
      congr 1
      omega
    have hmap : (List.range (fuel + 1)).map (fun i => wait_time (rc + 1 + i)) =
        wait_time (rc + 1) ::
          (List.range fuel).map (fun i => wait_time (rc + 1 + 1 + i)) := by
      rw [List.range_succ_eq_map, List.map_cons, List.map_map, hcomp]
    rw [runAttempts, hall attempt]
    norm_num
    rw [ih, hmap]
    simp [List.append_assoc, List.replicate_succ]

/-- Claim C1, counterexample — On HTTP 429 the client does *not* rotate to a
next credential: in a run whose first response is 429 and whose second is
a 200, both attempts use the very same `Authorization` header, and the
client's credential list holds exactly one token (there is no pool with a
cursor to advance).  The backoff sleep of 2 seconds and the re-entry do
happen. -/
theorem generate_interpretation_no_rotation :
    generate_interpretation ⟨"tokenA", 2⟩
        (fun i => if i = 0 then .response 429 []
                  else .response 200 ["All good"]) =
      ⟨[2], ["Bearer tokenA", "Bearer tokenA"], .success "All good"⟩ ∧
    (credential_pool ⟨"tokenA", 2⟩).length = 1 := by
  constructor
  · rfl
  · rfl

/-- Claim C1, amended — Whenever the endpoint answers HTTP 429, the client
increments its retry counter, sleeps `min(2^retry_count, 30)` seconds
(computed from the post-increment counter: the i-th sleep is
`min(2^(i+1), 30)`), and re-enters the sending state, for at most
`max_retries` retried attempts (`max_retries + 1` sends in total); it does
not rotate credentials — the single bearer token fixed at initialization
is used, unchanged, on every attempt. -/
theorem generate_interpretation_rate_limit_backoff (c : Client)
    (rs : ℕ → HttpOutcome) (hall : ∀ i, rs i = .response 429 []) :
    generate_interpretation c rs =
      ⟨(List.range (c.max_retries + 1)).map (fun i => min (2 ^ (i + 1)) 30),
       List.replicate (c.max_retries + 1) (authHeader c),
       .error exhaustedMsg⟩ ∧
    credential_pool c = [c.token] := by
  refine ⟨?_, rfl⟩
  rw [generate_interpretation, runAttempts_allRateLimited c rs hall]
  have hfun : (fun i => wait_time (0 + 1 + i)) =
      (fun i => min (2 ^ (i + 1)) 30) := by
    funext i
    show wait_time (0 + 1 + i) = min (2 ^ (i + 1)) 30
    unfold wait_time
    congr 2
    omega
  rw [hfun]
  simp

/-- Witness for the amended C1: with token `"tokenA"` and
`max_retries = 2`, persistent 429s produce exactly the sleeps `[2, 4, 8]`,
the same header `"Bearer tokenA"` on all three attempts, and the
exhausted-retries failure. -/
theorem generate_interpretation_rate_limit_backoff_witness :
    generate_interpretation ⟨"tokenA", 2⟩ (fun _ => .response 429 []) =
      ⟨[2, 4, 8], ["Bearer tokenA", "Bearer tokenA", "Bearer tokenA"],
       .error exhaustedMsg⟩ ∧
    credential_pool ⟨"tokenA", 2⟩ = ["tokenA"] := by
  have h := generate_interpretation_rate_limit_backoff ⟨"tokenA", 2⟩
    (fun _ => .response 429 []) (fun _ => rfl)
  refine ⟨?_, h.2⟩
  rw [h.1]
  rfl

/-- The non-retryable failure message named by `failMsg` never coincides
with the exhausted-retries message (their texts differ from the first
character on). -/
theorem failMsg_ne_exhaustedMsg (status : ℕ) : failMsg status ≠ exhaustedMsg := by
  intro h
  have h6 : (failMsg status).data.take 6 = exhaustedMsg.data.take 6 :=
    congrArg (fun s => s.data.take 6) h
  have hL : (failMsg status).data.take 6 = "GitHub".data := by
    have hdata : (failMsg status).data =
        "GitHub AI request failed: ".data ++ (toString status).data := rfl
    rw [hdata, List.take_append_of_le_length (by decide)]
    decide
  rw [hL] at h6
  exact absurd h6 (by decide)

/-- Claim C2 — Any HTTP status other than 200 and 429 makes the request loop
return a Failed result immediately (no sleep, a single attempt), while
exhausting the retries on persistent 429s returns a Failed result whose
message is distinct from the non-retryable failure message. -/
theorem generate_interpretation_non_retryable (c : Client)
    (rs rs429 : ℕ → HttpOutcome) (status : ℕ) (choices : List String)
    (h0 : rs 0 = .response status choices)
    (h200 : status ≠ 200) (h429 : status ≠ 429)
    (hall : ∀ i, rs429 i = .response 429 []) :
    generate_interpretation c rs =
      ⟨[], [authHeader c], .error (failMsg status)⟩ ∧
    (generate_interpretation c rs429).result = .error exhaustedMsg ∧
    failMsg status ≠ exhaustedMsg := by
  refine ⟨?_, ?_, failMsg_ne_exhaustedMsg status⟩
  · rw [generate_interpretation, runAttempts, h0]
    dsimp only
    rw [if_neg h200, if_neg h429]
    simp
  · rw [generate_interpretation, runAttempts_allRateLimited c rs429 hall]

/-- Witness for C2: a 500 answer fails immediately with
`"GitHub AI request failed: 500"`, persistent 429s fail with the distinct
exhausted-retries message. -/
theorem generate_interpretation_non_retryable_witness :
    generate_interpretation ⟨"tokenA", 2⟩ (fun _ => .response 500 []) =
      ⟨[], ["Bearer tokenA"], .error "GitHub AI request failed: 500"⟩ ∧
    (generate_interpretation ⟨"tokenA", 2⟩
      (fun _ => .response 429 [])).result = .error exhaustedMsg ∧
    "GitHub AI request failed: 500" ≠ exhaustedMsg := by
  have h := generate_interpretation_non_retryable ⟨"tokenA", 2⟩
    (fun _ => .response 500 []) (fun _ => .response 429 []) 500 []
    rfl (by norm_num) (by norm_num) (fun _ => rfl)
  have hmsg : failMsg 500 = "GitHub AI request failed: 500" := by decide
  refine ⟨?_, h.2.1, ?_⟩
  · rw [← hmsg]
    exact h.1
  · rw [← hmsg]
    exact h.2.2

/-! ## `backend/github_ai.py` : `GitHubAIClient._extract_issue_locations`

Per-line parsing inside the `[ISSUE_LOCATIONS]` block:

```python
for line in locations_text.split('\n'):
    line = line.strip()
    if not line or not line.startswith('-'):
        continue
    try:
        parts = line[1:].split(':')
        if len(parts) != 2:
            continue
        issue_type = parts[0].strip()
        coords_str = parts[1].strip()
        coords_str = ''.join(c for c in coords_str if c.isdigit() or c in ',.[] \t')
        coords_parts = [p.strip() for p in coords_str.split(',') if p.strip()]
        if len(coords_parts) != 4:
            continue
        coords = []
        for part in coords_parts:
            try:
                value = float(part)
                if 0 <= value <= 100:
                    coords.append(value)
                else:
                    raise ValueError("Coordinate out of range")
            except ValueError:
                raise
        if len(coords) != 4:
            continue
        if coords[2] <= coords[0] or coords[3] <= coords[1]:
            coords = [min(coords[0], coords[2]), min(coords[1], coords[3]),
                      max(coords[0], coords[2]), max(coords[1], coords[3])]
        issue_locations.append({"type": issue_type, "coords": coords})
    except Exception:
        continue
```

A raised `ValueError` (failed parse or out-of-range value) aborts the
whole line — the `except` clause discards it entirely.
-/

/-- Python `str.strip()` on the ASCII whitespace that can occur here. -/
def pyStrip (l : List Char) : List Char :=
  ((l.dropWhile Char.isWhitespace).reverse.dropWhile Char.isWhitespace).reverse

/-- Python `str.split(sep)` for a one-character separator. -/
def splitOnChar (sep : Char) : List Char → List (List Char)
  | [] => [[]]
  | c :: rest =>
    match splitOnChar sep rest with
    | [] => if c = sep then [[], []] else [[c]]
    | h :: t => if c = sep then [] :: h :: t else (c :: h) :: t

/-- The character filter `c.isdigit() or c in ',.[] \t'`. -/
def keepCoordChar (c : Char) : Bool :=
  c.isDigit || c = ',' || c = '.' || c = '[' || c = ']' || c = ' ' || c = '\t'

/-- The numeric value of a digit string (most significant first). -/
def digitsVal (l : List Char) : ℕ :=
  l.foldl (fun acc c => 10 * acc + (c.toNat - '0'.toNat)) 0

/-- Python `float(part)` restricted to the characters that survive the
filter: succeeds exactly on strings of digits with at most one `'.'` and
at least one digit (`"50"`, `"50."`, `".5"`); brackets, inner whitespace,
a second dot, or an empty string raise `ValueError`. -/
def parsePyFloat (l : List Char) : Option ℚ :=
  if l.all (fun c => c.isDigit || c = '.') && l.count '.' ≤ 1 &&
      l.any Char.isDigit then
    let intPart := l.takeWhile (· ≠ '.')
    let fracPart := (l.dropWhile (· ≠ '.')).drop 1
    some (mkRat (digitsVal (intPart ++ fracPart)) (10 ^ fracPart.length))
  else none

/-- Python `float(part)` followed by the range check `0 <= value <= 100`
(an out-of-range value raises, discarding the line). -/
def parseCoordValue (l : List Char) : Option ℚ :=
  (parsePyFloat l).bind fun v =>
    if 0 ≤ v ∧ v ≤ 100 then some v else none

/-- The ordering fix: if `x2 <= x1 or y2 <= y1`, replace the box by
`(min x1 x2, min y1 y2, max x1 x2, max y1 y2)`. -/
def normalizeBox (b : ℚ × ℚ × ℚ × ℚ) : ℚ × ℚ × ℚ × ℚ :=
  if b.2.2.1 ≤ b.1 ∨ b.2.2.2 ≤ b.2.1 then
    (min b.1 b.2.2.1, min b.2.1 b.2.2.2, max b.1 b.2.2.1, max b.2.1 b.2.2.2)
  else b

/-- An AI-extracted Issue Location. -/
structure IssueLocation where
  type : String
  x1 : ℚ
  y1 : ℚ
  x2 : ℚ
  y2 : ℚ
deriving DecidableEq, Repr

/-- The invariant the spec claims for extracted Issue Locations. -/
def strictBox (loc : IssueLocation) : Prop := loc.x1 < loc.x2 ∧ loc.y1 < loc.y2

/-- Parse the four coordinate strings and apply the ordering fix. -/
def parse4 (a b c d : List Char) : Option (ℚ × ℚ × ℚ × ℚ) := do
  let x1 ← parseCoordValue a
  let y1 ← parseCoordValue b
  let x2 ← parseCoordValue c
  let y2 ← parseCoordValue d
  pure (normalizeBox (x1, y1, x2, y2))

/-- One line of the issue-locations block, as parsed by
`_extract_issue_locations` (`None` when the line is skipped or a
`ValueError` discards it). -/
def parseLocationLine (line : String) : Option IssueLocation :=
  let l := pyStrip line.data
  if l.head? = some '-' then
    match splitOnChar ':' l.tail with
    | [tpart, cpart] =>
      let coordsFiltered := (pyStrip cpart).filter keepCoordChar
      match (splitOnChar ',' coordsFiltered).map pyStrip
          |>.filter (· ≠ []) with
      | [a, b, c, d] =>
        (parse4 a b c d).map fun q =>
          ⟨String.mk (pyStrip tpart), q.1, q.2.1, q.2.2.1, q.2.2.2⟩
      | _ => none
    | _ => none
  else none

/-- Method `_extract_issue_locations` over the lines of the block between the
markers: successfully parsed lines, in order. -/
def extract_issue_locations (locations_text : List Char) : List IssueLocation :=
  ((splitOnChar '\n' locations_text).map
    (fun l => parseLocationLine (String.mk l))).reduceOption

theorem parseCoordValue_bounds {l : List Char} {v : ℚ}
    (h : parseCoordValue l = some v) : 0 ≤ v ∧ v ≤ 100 := by
  unfold parseCoordValue at h
  cases hp : parsePyFloat l with
  | none => rw [hp] at h; simp at h
  | some w =>
    rw [hp] at h
    simp only [Option.some_bind] at h
    split at h
    · cases h
      assumption
    · simp at h

theorem normalizeBox_ordered (b : ℚ × ℚ × ℚ × ℚ) :
    (normalizeBox b).1 ≤ (normalizeBox b).2.2.1 ∧
    (normalizeBox b).2.1 ≤ (normalizeBox b).2.2.2 := by
  unfold normalizeBox
  split
  · exact ⟨min_le_max, min_le_max⟩
  · rename_i hn
    push_neg at hn
    exact ⟨hn.1.le, hn.2.le⟩

theorem normalizeBox_bounds (p q r s : ℚ)
    (h1 : 0 ≤ p ∧ p ≤ 100) (h2 : 0 ≤ q ∧ q ≤ 100)
    (h3 : 0 ≤ r ∧ r ≤ 100) (h4 : 0 ≤ s ∧ s ≤ 100) :
    (0 ≤ (normalizeBox (p, q, r, s)).1 ∧ (normalizeBox (p, q, r, s)).1 ≤ 100) ∧
    (0 ≤ (normalizeBox (p, q, r, s)).2.1 ∧
      (normalizeBox (p, q, r, s)).2.1 ≤ 100) ∧
    (0 ≤ (normalizeBox (p, q, r, s)).2.2.1 ∧
      (normalizeBox (p, q, r, s)).2.2.1 ≤ 100) ∧
    (0 ≤ (normalizeBox (p, q, r, s)).2.2.2 ∧
      (normalizeBox (p, q, r, s)).2.2.2 ≤ 100) := by
  unfold normalizeBox
  split
  · refine ⟨⟨?_, ?_⟩, ⟨?_, ?_⟩, ⟨?_, ?_⟩, ⟨?_, ?_⟩⟩ <;>
      simp only [le_min_iff, min_le_iff, le_max_iff, max_le_iff] <;> tauto
  · exact ⟨h1, h2, h3, h4⟩

theorem parse4_spec {a b c d : List Char} {q : ℚ × ℚ × ℚ × ℚ}
    (h : parse4 a b c d = some q) :
    q.1 ≤ q.2.2.1 ∧ q.2.1 ≤ q.2.2.2 ∧
    (0 ≤ q.1 ∧ q.1 ≤ 100) ∧ (0 ≤ q.2.1 ∧ q.2.1 ≤ 100) ∧
    (0 ≤ q.2.2.1 ∧ q.2.2.1 ≤ 100) ∧ (0 ≤ q.2.2.2 ∧ q.2.2.2 ≤ 100) := by
  simp only [parse4, bind, Option.bind_eq_some, Option.pure_def,
    Option.some.injEq] at h
  obtain ⟨x1, hx1, y1, hy1, x2, hx2, y2, hy2, hq⟩ := h
  subst hq
  have b1 := parseCoordValue_bounds hx1
  have b2 := parseCoordValue_bounds hy1
  have b3 := parseCoordValue_bounds hx2
  have b4 := parseCoordValue_bounds hy2
  have hord := normalizeBox_ordered (x1, y1, x2, y2)
  have hbnd := normalizeBox_bounds x1 y1 x2 y2 b1 b2 b3 b4
  exact ⟨hord.1, hord.2, hbnd.1, hbnd.2.1, hbnd.2.2.1, hbnd.2.2.2⟩

/-- Claim C5, counterexample — The degenerate line `"- Pothole: 50,60,50,70"`
(where `x2 = x1`) is extracted, and the min/max fix leaves it degenerate:
the resulting Issue Location violates `x2 > x1`. -/
theorem extract_issue_locations_degenerate :
    parseLocationLine "- Pothole: 50,60,50,70" =
      some ⟨"Pothole", 50, 60, 50, 70⟩ ∧
    ¬ strictBox ⟨"Pothole", 50, 60, 50, 70⟩ := by
  constructor
  · decide
  · intro hs
    exact lt_irrefl (50 : ℚ) hs.1

/-- Claim C5, amended — Every Issue Location extracted from a line of the
issue-location block satisfies `x1 ≤ x2` and `y1 ≤ y2` after
normalization (an inverted box is min/max-swapped, but a degenerate box
with equal coordinates stays degenerate, so the strict inequalities need
not hold), and all four coordinates lie in `[0, 100]`; a line containing
a coordinate outside `[0, 100]` is discarded entirely (for instance
`"- Pothole: 45,60,55,170"` yields nothing). -/
theorem extract_issue_locations_normalized (line : String)
    (loc : IssueLocation) (h : parseLocationLine line = some loc) :
    (loc.x1 ≤ loc.x2 ∧ loc.y1 ≤ loc.y2 ∧
     (0 ≤ loc.x1 ∧ loc.x1 ≤ 100) ∧ (0 ≤ loc.y1 ∧ loc.y1 ≤ 100) ∧
     (0 ≤ loc.x2 ∧ loc.x2 ≤ 100) ∧ (0 ≤ loc.y2 ∧ loc.y2 ≤ 100)) ∧
    parseLocationLine "- Pothole: 45,60,55,170" = none := by
  refine ⟨?_, by decide⟩
  unfold parseLocationLine at h
  dsimp only at h
  split at h
  · split at h
    · split at h
      · rename_i a b c d
        simp only [Option.map_eq_some'] at h
        obtain ⟨q, hq, hloc⟩ := h
        have hs := parse4_spec hq
        subst hloc
        exact hs
      · exact absurd h (by simp)
    · exact absurd h (by simp)
  · exact absurd h (by simp)

/-- Witness for the amended C5: the line `"- Garbage: 20,30,25,35"`
parses to an in-range, correctly ordered Issue Location (and the
out-of-range line is discarded). -/
theorem extract_issue_locations_normalized_witness :
    ((20 : ℚ) ≤ 25 ∧ (30 : ℚ) ≤ 35 ∧
     ((0 : ℚ) ≤ 20 ∧ (20 : ℚ) ≤ 100) ∧ ((0 : ℚ) ≤ 30 ∧ (30 : ℚ) ≤ 100) ∧
     ((0 : ℚ) ≤ 25 ∧ (25 : ℚ) ≤ 100) ∧ ((0 : ℚ) ≤ 35 ∧ (35 : ℚ) ≤ 100)) ∧
    parseLocationLine "- Pothole: 45,60,55,170" = none :=
  extract_issue_locations_normalized "- Garbage: 20,30,25,35"
    ⟨"Garbage", 20, 30, 25, 35⟩ (by decide)

end TownSense
